import Mathlib

/-!
Shallow embedding of the goard session/authentication core (Go package `goard`):
the session store (`store` in goard, a map keyed by session id), the
orchestrator operations `signin`, `signinAsAdmin`, `signup`, `signout`,
`session`, the cleanup tick, `setRole`, `unsetRole`, and the pure helper
`diffSlices`.  Machine integers become `Int`/`Nat`; `time.Time` values are
compared through `Unix()` in the source, so times are modelled as `Nat`
seconds.  External collaborators (database, app, hasher, validator) are
modelled as explicit function-valued fields of the `Goard` record, and calls
to them are recorded in an event trace.  Fallible operations return `Except`.
-/

namespace GoardSpec

/-- The typed errors of the package (`goard.go`): `ErrMethod`,
`ErrAccessDenied`, `ErrRoleConflict`, `ErrCredentialsConflict`,
`ErrCredentialsNotFound`, `ErrCredentialsMismatch`, `ErrBadCredentials`,
`ErrSessionNotFound`, `ErrSessionExpired`; `collaborator` stands for any
opaque error bubbled up from an external collaborator. -/
inductive GoardError where
  | method
  | accessDenied
  | roleConflict
  | credentialsConflict
  | credentialsNotFound
  | credentialsMismatch
  | badCredentials
  | sessionNotFound
  | sessionExpired
  | collaborator (msg : String)
deriving DecidableEq, Repr

/-- `Credentials` from `goard_types.go`: id, login, passhash, roles. -/
structure Credentials where
  id : Int
  login : String
  passhash : String
  roles : List String
deriving DecidableEq, Repr

/-- `Session` from `goard_types.go`.  The `account` interface only exposes
`GetID() int64`, so an account is modelled by its id.  `exp`/`iss` are Unix
seconds. -/
structure Session where
  id : String
  account : Int
  credentials : Credentials
  exp : Nat
  iss : Nat
  admin : Bool
deriving DecidableEq, Repr

/-- The in-memory session store (`store` in goard): a map from session id to
session, modelled as a list of sessions whose ids are pairwise distinct. -/
abbrev Store : Type := List Session

/-- `store.CreateSession`: map insert, overwriting any entry with the same
id. -/
def Store.createSession (st : Store) (s : Session) : Store :=
  if (List.any st fun t => t.id = s.id) then
    List.map (fun t => if t.id = s.id then s else t) st
  else
    st ++ [s]

/-- `store.InvokeSession`: map lookup; `none` stands for
`ErrSessionNotFound`. -/
def Store.invokeSession (st : Store) (id : String) : Option Session :=
  List.find? (fun t => t.id = id) st

/-- `store.RevokeSession`: map delete; absence is not an error. -/
def Store.revokeSession (st : Store) (id : String) : Store :=
  List.filter (fun t => ¬ t.id = id) st

/-- `store.Count`: number of stored sessions. -/
def Store.count (st : Store) : Nat :=
  List.length st

/-- `store.ForEach`: snapshot the sessions, then run the callback on each
snapshot entry without holding the lock.  The callbacks of the core mutate
the store, so the model threads the store state through a fold over the
snapshot (which is the store as it was when the iteration started). -/
def Store.forEach (st : Store) (f : Store → Session → Store) : Store :=
  List.foldl f st st

/-- Events recording every call to an external collaborator. -/
inductive Event where
  | dbCredentialsByLogin (login : String)
  | dbCredentialsByID (id : Int)
  | dbCreateCredentials (c : Credentials)
  | dbUpdateCredentials (c : Credentials)
  | appCreateAccount
  | appAccountByID (id : Int)
  | appDeleteAccount (id : Int)
  | hasherHash (password : String)
  | hasherCompare (hash password : String)
deriving DecidableEq, Repr

/-- The `Goard` orchestrator: the admin identity, the ttl, and the external
collaborators (`Validator`, `App`, `Database`, `Hasher`) as functions. -/
structure Goard where
  adminAccount : Int
  adminLogin : String
  adminPassword : String
  ttl : Nat
  validate : String → String → Bool
  createAccount : String → Except GoardError Int
  deleteAccount : Int → Except GoardError Unit
  accountByID : Int → Except GoardError Int
  credentialsByLogin : String → Except GoardError Credentials
  credentialsByID : Int → Except GoardError Credentials
  createCredentials : Credentials → Except GoardError Unit
  updateCredentials : Credentials → Except GoardError Unit
  hash : String → Except GoardError String
  compare : String → String → Bool

instance {ε α : Type} [DecidableEq ε] [DecidableEq α] : DecidableEq (Except ε α) := fun x y =>
  match x, y with
  | .ok a, .ok b =>
      if h : a = b then .isTrue (by rw [h]) else .isFalse (by intro hc; cases hc; exact h rfl)
  | .ok _, .error _ => .isFalse (by intro hc; cases hc)
  | .error _, .ok _ => .isFalse (by intro hc; cases hc)
  | .error a, .error b =>
      if h : a = b then .isTrue (by rw [h]) else .isFalse (by intro hc; cases hc; exact h rfl)

/-- Outcome of a sign-in: the returned session or error, the resulting
store, and the collaborator calls made. -/
structure SigninOut where
  result : Except GoardError Session
  store : Store
  events : List Event
deriving DecidableEq, Repr

/-- Outcome of a sign-up: the returned error (if any) and the collaborator
calls made. -/
structure SignupOut where
  result : Except GoardError Unit
  events : List Event
deriving DecidableEq, Repr

/-- Outcome of session validation: the returned session or error and the
resulting store (the fire-and-forget revocation of an expired entry is
modelled as having taken effect). -/
structure SessionOut where
  result : Except GoardError Session
  store : Store
deriving DecidableEq, Repr

/-- Outcome of a role mutation. -/
structure RoleOut where
  result : Except GoardError Unit
  store : Store
  events : List Event
deriving DecidableEq, Repr

/-- `Goard.signinAsAdmin` (goard_core.go:27-51): synthesize a session for
the configured admin and insert it.  The Go struct literal sets id, account,
credentials (with roles `["admin"]`), exp and iss but omits the `admin`
field, which therefore keeps its zero value `false`. -/
def signinAsAdmin (g : Goard) (st : Store) (freshId : String) (now : Nat) : SigninOut :=
  let s : Session :=
    { id := freshId
      account := g.adminAccount
      credentials := { id := 0, login := g.adminLogin, passhash := "", roles := ["admin"] }
      exp := now + g.ttl
      iss := now
      admin := false }
  { result := .ok s, store := Store.createSession st s, events := [] }

/-- Step 1 of sign-in (goard_core.go:60-77): iterate a snapshot of the store
and revoke every session whose credential login equals the requested
login. -/
def revokeLoginSessions (st : Store) (login : String) : Store :=
  Store.forEach st fun acc s =>
    if s.credentials.login = login then Store.revokeSession acc s.id else acc

/-- `Goard.signin` (goard_core.go:53-138).  `freshId` is the uuid generated
for the new session and `now` the current time; the context is taken to be
uncancelled. -/
def signin (g : Goard) (st : Store) (freshId : String) (now : Nat)
    (login password : String) : SigninOut :=
  if login = "" ∨ password = "" then
    { result := .error .badCredentials, store := st, events := [] }
  else
    let st1 := revokeLoginSessions st login
    if login = g.adminLogin ∧ password = g.adminPassword then
      signinAsAdmin g st1 freshId now
    else
      match g.credentialsByLogin login with
      | .error e =>
          { result := .error e, store := st1, events := [.dbCredentialsByLogin login] }
      | .ok credentials =>
        match g.accountByID credentials.id with
        | .error e =>
            { result := .error e, store := st1
              events := [.dbCredentialsByLogin login, .appAccountByID credentials.id] }
        | .ok account =>
          if g.compare credentials.passhash password then
            let s : Session :=
              { id := freshId, account := account, credentials := credentials
                exp := now + g.ttl, iss := now, admin := false }
            { result := .ok s, store := Store.createSession st1 s
              events := [.dbCredentialsByLogin login, .appAccountByID credentials.id,
                         .hasherCompare credentials.passhash password] }
          else
            { result := .error .credentialsMismatch, store := st1
              events := [.dbCredentialsByLogin login, .appAccountByID credentials.id,
                         .hasherCompare credentials.passhash password] }

/-- `Goard.signup` (goard_core.go:140-223).  The deferred rollback calls
`app.DeleteAccount` only when the *named* variable `err` is non-nil at
return time.  Returns at which that variable is nil (in particular the
id-conflict return, which does not assign to `err`) therefore skip the
rollback; after the by-id check fails with `ErrCredentialsNotFound` the
named `err` holds that non-nil value, and the by-login check assigns a
shadowed `err`, so returns from that point on do roll back until `err` is
overwritten by the hash step. -/
def signup (g : Goard) (account login password : String) : SignupOut :=
  if g.validate login password then
    match g.createAccount account with
    | .error e => { result := .error e, events := [.appCreateAccount] }
    | .ok accId =>
      match g.credentialsByID accId with
      | .ok _ =>
          { result := .error .credentialsConflict
            events := [.appCreateAccount, .dbCredentialsByID accId] }
      | .error e =>
        if e = .credentialsNotFound then
          match g.credentialsByLogin login with
          | .ok _ =>
              { result := .error .credentialsConflict
                events := [.appCreateAccount, .dbCredentialsByID accId,
                           .dbCredentialsByLogin login, .appDeleteAccount accId] }
          | .error e2 =>
            if e2 = .credentialsNotFound then
              match g.hash password with
              | .error e3 =>
                  { result := .error e3
                    events := [.appCreateAccount, .dbCredentialsByID accId,
                               .dbCredentialsByLogin login, .hasherHash password,
                               .appDeleteAccount accId] }
              | .ok passhash =>
                let c : Credentials := { id := accId, login := login, passhash := passhash, roles := [] }
                match g.createCredentials c with
                | .error e4 =>
                    { result := .error e4
                      events := [.appCreateAccount, .dbCredentialsByID accId,
                                 .dbCredentialsByLogin login, .hasherHash password,
                                 .dbCreateCredentials c, .appDeleteAccount accId] }
                | .ok _ =>
                    { result := .ok ()
                      events := [.appCreateAccount, .dbCredentialsByID accId,
                                 .dbCredentialsByLogin login, .hasherHash password,
                                 .dbCreateCredentials c] }
            else
              { result := .error e2
                events := [.appCreateAccount, .dbCredentialsByID accId,
                           .dbCredentialsByLogin login, .appDeleteAccount accId] }
        else
          { result := .error e
            events := [.appCreateAccount, .dbCredentialsByID accId,
                       .appDeleteAccount accId] }
  else
    { result := .error .badCredentials, events := [] }

/-- `Goard.signout` (goard_core.go:225-236): fast path on an empty store,
otherwise revoke unconditionally. -/
def signout (st : Store) (sessionID : String) : Store :=
  if Store.count st = 0 then st else Store.revokeSession st sessionID

/-- `Goard.session` (goard_core.go:238-260): empty store fails fast with
`ErrSessionNotFound`; an absent id fails with `ErrSessionNotFound`; a found
session with `exp.Unix() > now.Unix()` is returned live; otherwise the entry
is revoked (asynchronously in the source) and the call fails with
`ErrSessionExpired`. -/
def session (st : Store) (now : Nat) (sessionID : String) : SessionOut :=
  if Store.count st = 0 then
    { result := .error .sessionNotFound, store := st }
  else
    match Store.invokeSession st sessionID with
    | none => { result := .error .sessionNotFound, store := st }
    | some s =>
      if s.exp > now then
        { result := .ok s, store := st }
      else
        { result := .error .sessionExpired, store := Store.revokeSession st sessionID }

/-- One tick of `Goard.cleanup` (goard_core.go:262-298) at tick time `t`:
skip an empty store, otherwise iterate a snapshot and revoke every session
with `exp.Unix() <= t.Unix()`. -/
def cleanupTick (st : Store) (t : Nat) : Store :=
  if Store.count st = 0 then st
  else
    Store.forEach st fun acc s =>
      if s.exp > t then acc else Store.revokeSession acc s.id

/-- The session literal built inside the `ForEach` callbacks of `setRole`
and `unsetRole`: same id/account/exp/iss/admin, fresh credentials. -/
def replaceCredentials (s : Session) (c : Credentials) : Session :=
  { id := s.id, account := s.account, credentials := c
    exp := s.exp, iss := s.iss, admin := s.admin }

/-- The propagation loop of `setRole`/`unsetRole` (goard_core.go:327-344,
377-394): iterate a snapshot and replace every session whose credentials id
equals the updated credentials' id. -/
def propagateCredentials (st : Store) (c : Credentials) : Store :=
  Store.forEach st fun acc s =>
    if s.credentials.id = c.id then
      Store.createSession acc (replaceCredentials s c)
    else acc

/-- `Goard.setRole` (goard_core.go:300-347). -/
def setRole (g : Goard) (st : Store) (id : String) (account : Int) (role : String) : RoleOut :=
  match Store.invokeSession st id with
  | none => { result := .error .sessionNotFound, store := st, events := [] }
  | some sess =>
    if sess.admin then
      match g.credentialsByID account with
      | .error e => { result := .error e, store := st, events := [.dbCredentialsByID account] }
      | .ok credentials =>
        if role ∈ credentials.roles then
          { result := .error .roleConflict, store := st
            events := [.dbCredentialsByID account] }
        else
          let c : Credentials := { credentials with roles := credentials.roles ++ [role] }
          match g.updateCredentials c with
          | .error e =>
              { result := .error e, store := st
                events := [.dbCredentialsByID account, .dbUpdateCredentials c] }
          | .ok _ =>
              { result := .ok (), store := propagateCredentials st c
                events := [.dbCredentialsByID account, .dbUpdateCredentials c] }
    else
      { result := .error .accessDenied, store := st, events := [] }

/-- `Goard.unsetRole` (goard_core.go:349-397): filter the role out (an
absent role leaves the list as it was), persist, propagate. -/
def unsetRole (g : Goard) (st : Store) (id : String) (account : Int) (role : String) : RoleOut :=
  match Store.invokeSession st id with
  | none => { result := .error .sessionNotFound, store := st, events := [] }
  | some sess =>
    if sess.admin then
      match g.credentialsByID account with
      | .error e => { result := .error e, store := st, events := [.dbCredentialsByID account] }
      | .ok credentials =>
        let c : Credentials :=
          { credentials with roles := List.filter (fun r => ¬ r = role) credentials.roles }
        match g.updateCredentials c with
        | .error e =>
            { result := .error e, store := st
              events := [.dbCredentialsByID account, .dbUpdateCredentials c] }
        | .ok _ =>
            { result := .ok (), store := propagateCredentials st c
              events := [.dbCredentialsByID account, .dbUpdateCredentials c] }
    else
      { result := .error .accessDenied, store := st, events := [] }

/-- `diffSlices` (goard_database.go:371-401): walk `old` keeping the items
absent from `new`, then walk `new` keeping the items absent from `old`. -/
def diffSlices (old new : List String) : List String × List String :=
  (List.filter (fun item => ¬ item ∈ new) old,
   List.filter (fun item => ¬ item ∈ old) new)

/-- A concrete collaborator configuration for closed evaluations: admin
identity `root`/`pw` with account 7, ttl 5; the database knows no
credentials and password comparison always fails. -/
def gAdmin : Goard :=
  ⟨7, "root", "pw", 5,
   fun _ _ => true,
   fun _ => .ok 1,
   fun _ => .ok (),
   fun _ => .error (.collaborator "noapp"),
   fun _ => .error .credentialsNotFound,
   fun _ => .error .credentialsNotFound,
   fun _ => .ok (),
   fun _ => .ok (),
   fun _ => .ok "H",
   fun _ _ => false⟩

/-- A concrete collaborator configuration for closed evaluations: the
database holds credentials for `alice` (account id 1), accounts resolve to
their id, and password comparison always succeeds. -/
def gAlice : Goard :=
  ⟨7, "root", "pw", 5,
   fun _ _ => true,
   fun _ => .ok 1,
   fun _ => .ok (),
   fun i => .ok i,
   fun _ => .ok ⟨1, "alice", "H", []⟩,
   fun _ => .ok ⟨42, "alice", "H", ["editor"]⟩,
   fun _ => .ok (),
   fun _ => .ok (),
   fun _ => .ok "H",
   fun _ _ => true⟩

/-- A concrete live session for `alice` used in closed evaluations. -/
def sAlice : Session :=
  ⟨"old", 1, ⟨1, "alice", "H", []⟩, 45, 40, false⟩

/-- Collaborators for which the sign-up by-id conflict check finds existing
credentials. -/
def gConflictID : Goard :=
  { gAdmin with credentialsByID := fun _ => .ok ⟨1, "bob", "h", []⟩ }

/-- Collaborators for which the sign-up by-login conflict check finds
existing credentials. -/
def gConflictLogin : Goard :=
  { gAdmin with credentialsByLogin := fun _ => .ok ⟨2, "bob", "h", []⟩ }

/-- The per-session expiry invariant of §3 of the design:
`expiresAt = issuedAt + ttl` and `expiresAt > issuedAt`. -/
def sessionWF (ttl : Nat) (s : Session) : Prop :=
  s.exp = s.iss + ttl ∧ s.iss < s.exp

instance (ttl : Nat) (s : Session) : Decidable (sessionWF ttl s) := by
  unfold sessionWF
  infer_instance

/-- The expiry invariant holds for every session in the store. -/
def storeWF (ttl : Nat) (st : Store) : Prop :=
  ∀ s ∈ st, sessionWF ttl s

instance (ttl : Nat) (st : Store) : Decidable (storeWF ttl st) := by
  unfold storeWF
  infer_instance

/-- Post-state of the role-propagation scan: every session of `st` whose
credentials id equals the target account id occurs in `st'` replaced by its
`replaceCredentials` copy — and that copy is the unique session of `st'`
under its id, the one `InvokeSession` now returns — while every session for
a different account is still present unchanged. -/
def replacedAll (st : Store) (account : Int) (c : Credentials) (st' : Store) : Prop :=
  (∀ t ∈ st, t.credentials.id = account →
     replaceCredentials t c ∈ st' ∧
     (∀ u ∈ st', u.id = t.id → u = replaceCredentials t c) ∧
     Store.invokeSession st' t.id = some (replaceCredentials t c)) ∧
  (∀ t ∈ st, t.credentials.id ≠ account → t ∈ st')

instance (st : Store) (account : Int) (c : Credentials) (st' : Store) :
    Decidable (replacedAll st account c st') := by
  unfold replacedAll
  infer_instance

end GoardSpec

namespace GoardSpec

/-! ### Generic lemmas about store iteration (`ForEach` with a mutating callback) -/

theorem mem_foldl_preserve (f : Store → Session → Store) (t : Session) :
    ∀ (l : List Session) (acc : Store),
      (∀ acc' s, s ∈ l → t ∈ acc' → t ∈ f acc' s) → t ∈ acc → t ∈ List.foldl f acc l
  | [], _, _, ht => ht
  | s :: rest, acc, hf, ht =>
      mem_foldl_preserve f t rest (f acc s)
        (fun a s' hs' => hf a s' (List.mem_cons_of_mem _ hs'))
        (hf acc s (List.mem_cons_self _ _) ht)

theorem not_mem_foldl_preserve (f : Store → Session → Store) (t : Session) :
    ∀ (l : List Session) (acc : Store),
      (∀ acc' s, s ∈ l → t ∉ acc' → t ∉ f acc' s) → t ∉ acc → t ∉ List.foldl f acc l
  | [], _, _, ht => ht
  | s :: rest, acc, hf, ht =>
      not_mem_foldl_preserve f t rest (f acc s)
        (fun a s' hs' => hf a s' (List.mem_cons_of_mem _ hs'))
        (hf acc s (List.mem_cons_self _ _) ht)

theorem mem_foldl_cases (f : Store → Session → Store) (Q : Session → Session → Prop)
    (hf : ∀ acc s u, u ∈ f acc s → u ∈ acc ∨ Q s u) :
    ∀ (l : List Session) (acc : Store) (u : Session),
      u ∈ List.foldl f acc l → u ∈ acc ∨ ∃ s ∈ l, Q s u
  | [], _, _, h => .inl h
  | s :: rest, acc, u, h =>
      match mem_foldl_cases f Q hf rest (f acc s) u h with
      | .inr ⟨s', hs', hq⟩ => .inr ⟨s', List.mem_cons_of_mem _ hs', hq⟩
      | .inl hmem =>
          match hf acc s u hmem with
          | .inl h2 => .inl h2
          | .inr hq => .inr ⟨s, List.mem_cons_self _ _, hq⟩

theorem foldl_eventually_not_mem (f : Store → Session → Store) (t : Session) :
    ∀ (l : List Session) (acc : Store), t ∈ l →
      (∀ acc', t ∉ f acc' t) →
      (∀ acc' s, s ∈ l → t ∉ acc' → t ∉ f acc' s) → t ∉ List.foldl f acc l := by
  intro l
  induction l with
  | nil => intro acc h; cases h
  | cons s rest ih =>
      intro acc hmem h1 h2
      rcases List.mem_cons.mp hmem with heq | htail
      · subst heq
        exact not_mem_foldl_preserve f t rest (f acc t)
          (fun a s' hs' => h2 a s' (List.mem_cons_of_mem _ hs')) (h1 acc)
      · exact ih (f acc s) htail h1 (fun a s' hs' => h2 a s' (List.mem_cons_of_mem _ hs'))

theorem foldl_eventually_mem (f : Store → Session → Store) (t t' : Session) :
    ∀ (l : List Session) (acc : Store), t ∈ l →
      (∀ acc', t' ∈ f acc' t) →
      (∀ acc' s, s ∈ l → t' ∈ acc' → t' ∈ f acc' s) → t' ∈ List.foldl f acc l := by
  intro l
  induction l with
  | nil => intro acc h; cases h
  | cons s rest ih =>
      intro acc hmem h1 h2
      rcases List.mem_cons.mp hmem with heq | htail
      · subst heq
        exact mem_foldl_preserve f t' rest (f acc t)
          (fun a s' hs' => h2 a s' (List.mem_cons_of_mem _ hs')) (h1 acc)
      · exact ih (f acc s) htail h1 (fun a s' hs' => h2 a s' (List.mem_cons_of_mem _ hs'))

/-! ### Basic lemmas about the store operations -/

theorem mem_revokeSession {t : Session} {st : Store} {id : String} :
    t ∈ Store.revokeSession st id ↔ t ∈ st ∧ t.id ≠ id := by
  simp [Store.revokeSession, List.mem_filter]

theorem self_mem_createSession (st : Store) (s : Session) :
    s ∈ Store.createSession st s := by
  unfold Store.createSession
  split
  · rename_i h
    rcases List.any_eq_true.mp h with ⟨x, hx, hid⟩
    exact List.mem_map.mpr ⟨x, hx, by simp [of_decide_eq_true hid]⟩
  · simp

theorem mem_createSession_elim {t : Session} {st : Store} {s : Session} :
    t ∈ Store.createSession st s → t = s ∨ t ∈ st := by
  unfold Store.createSession
  split
  · intro h
    rcases List.mem_map.mp h with ⟨x, hx, hxe⟩
    by_cases hid : x.id = s.id
    · left
      rw [← hxe, if_pos hid]
    · right
      rw [← hxe, if_neg hid]
      exact hx
  · intro h
    rcases List.mem_append.mp h with h1 | h1
    · right
      exact h1
    · left
      simpa using h1

theorem mem_createSession_of_ne {t : Session} {st : Store} {s : Session}
    (ht : t ∈ st) (hne : t.id ≠ s.id) : t ∈ Store.createSession st s := by
  unfold Store.createSession
  split
  · exact List.mem_map.mpr ⟨t, ht, by rw [if_neg hne]⟩
  · exact List.mem_append_left _ ht

theorem not_mem_createSession {t : Session} {st : Store} {s : Session}
    (ht : t ∉ st) (hne : t ≠ s) : t ∉ Store.createSession st s := fun h =>
  match mem_createSession_elim h with
  | .inl he => hne he
  | .inr hm => ht hm

theorem not_mem_createSession_same_id {t : Session} {st : Store} {s : Session}
    (hid : t.id = s.id) (hne : t ≠ s) : t ∉ Store.createSession st s := by
  unfold Store.createSession
  split
  · intro h
    rcases List.mem_map.mp h with ⟨x, hx, hxe⟩
    by_cases h2 : x.id = s.id
    · rw [if_pos h2] at hxe
      exact hne hxe.symm
    · rw [if_neg h2] at hxe
      rw [hxe] at h2
      exact h2 hid
  · rename_i hany
    intro h
    rcases List.mem_append.mp h with h1 | h1
    · exact hany (List.any_eq_true.mpr ⟨t, h1, decide_eq_true hid⟩)
    · rw [List.mem_singleton] at h1
      exact hne h1

end GoardSpec

namespace GoardSpec

/-! ### The login-revocation scan of sign-in -/

theorem revokeLoginSessions_subset {st : Store} {login : String} {u : Session}
    (h : u ∈ revokeLoginSessions st login) : u ∈ st := by
  simp only [revokeLoginSessions, Store.forEach] at h
  rcases mem_foldl_cases _ (fun _ _ => False)
      (by
        intro acc s v hv
        split at hv
        · exact .inl (mem_revokeSession.mp hv).1
        · exact .inl hv)
      st st u h with h1 | ⟨_, _, hfalse⟩
  · exact h1
  · exact hfalse.elim

theorem revokeLoginSessions_not_mem {st : Store} {login : String} {t : Session}
    (ht : t ∈ st) (hl : t.credentials.login = login) :
    t ∉ revokeLoginSessions st login := by
  simp only [revokeLoginSessions, Store.forEach]
  apply foldl_eventually_not_mem _ t st st ht
  · intro acc'
    rw [if_pos hl]
    intro hc
    exact (mem_revokeSession.mp hc).2 rfl
  · intro acc' s _ hnot hc
    split at hc
    · exact hnot (mem_revokeSession.mp hc).1
    · exact hnot hc

/-- Case shape of `signin`: on success the result session was stamped with
`exp = now + ttl`, `iss = now`, `id = freshId` and inserted into the store
left by the login-revocation scan; on failure the store is the one left by
that scan, except on the empty-input fast path where it is untouched. -/
theorem signin_cases (g : Goard) (st : Store) (freshId : String) (now : Nat)
    (login password : String) :
    (∃ s, (signin g st freshId now login password).result = .ok s ∧
       (signin g st freshId now login password).store
         = Store.createSession (revokeLoginSessions st login) s ∧
       s.exp = now + g.ttl ∧ s.iss = now ∧ s.id = freshId) ∨
    (∃ e, (signin g st freshId now login password).result = .error e ∧
       ((signin g st freshId now login password).store = revokeLoginSessions st login ∨
        ((login = "" ∨ password = "") ∧
         (signin g st freshId now login password).store = st))) := by
  unfold signin signinAsAdmin
  split
  · rename_i hemp
    right
    exact ⟨.badCredentials, rfl, .inr ⟨hemp, rfl⟩⟩
  · split
    · left
      exact ⟨_, rfl, rfl, rfl, rfl, rfl⟩
    · split
      · right
        exact ⟨_, rfl, .inl rfl⟩
      · split
        · right
          exact ⟨_, rfl, .inl rfl⟩
        · split
          · left
            exact ⟨_, rfl, rfl, rfl, rfl, rfl⟩
          · right
            exact ⟨_, rfl, .inl rfl⟩

end GoardSpec

namespace GoardSpec

/-- C3: after a sign-in for login L returns successfully, every session for
L that was in the store at the start of the sign-in has been revoked, the
newly created session is in the store, and it is the only session whose
credential login equals L (at most one live session per login).  `hfresh`
states that the generated uuid differs from every stored session id. -/
theorem signin_at_most_one_session_per_login (g : Goard) (st : Store)
    (freshId : String) (now : Nat) (login password : String) (s : Session)
    (hfresh : ∀ t ∈ st, t.id ≠ freshId)
    (hok : (signin g st freshId now login password).result = .ok s) :
    (∀ t ∈ st, t.credentials.login = login →
        t ∉ (signin g st freshId now login password).store) ∧
    s ∈ (signin g st freshId now login password).store ∧
    (∀ t ∈ (signin g st freshId now login password).store,
        t.credentials.login = login → t = s) := by
  rcases signin_cases g st freshId now login password with
    ⟨s', hres, hstore, _, _, hid⟩ | ⟨e, hres, _⟩
  · rw [hres] at hok
    injection hok with hs
    subst hs
    refine ⟨?_, ?_, ?_⟩
    · intro t ht hl
      rw [hstore]
      apply not_mem_createSession (revokeLoginSessions_not_mem ht hl)
      intro he
      exact hfresh t ht (by rw [he, hid])
    · rw [hstore]
      exact self_mem_createSession _ _
    · intro t ht hl
      rw [hstore] at ht
      rcases mem_createSession_elim ht with he | hmem
      · exact he
      · exact absurd hmem
          (revokeLoginSessions_not_mem (revokeLoginSessions_subset hmem) hl)
  · rw [hres] at hok
    cases hok

/-- Witness for C3: a concrete successful sign-in for `alice` removes her
old session and leaves exactly the new one. -/
theorem signin_at_most_one_session_per_login_witness :
    sAlice ∉ (signin gAlice [sAlice] "new" 100 "alice" "secret").store ∧
    (⟨"new", 1, ⟨1, "alice", "H", []⟩, 105, 100, false⟩ : Session) ∈
      (signin gAlice [sAlice] "new" 100 "alice" "secret").store := by
  have h := signin_at_most_one_session_per_login gAlice [sAlice] "new" 100
    "alice" "secret" ⟨"new", 1, ⟨1, "alice", "H", []⟩, 105, 100, false⟩
    (by decide) (by decide)
  exact ⟨h.1 sAlice (by decide) (by decide), h.2.1⟩

/-- C10: a sign-in attempt with non-empty login and password that fails
after the revocation scan (wrong password, unknown login, or a collaborator
error) still leaves the store with no pre-existing session for that login:
the revocation is performed before authentication, so sign-in is not atomic
on error and an unauthenticated caller can terminate a live session. -/
theorem signin_failure_still_revokes (g : Goard) (st : Store) (freshId : String)
    (now : Nat) (login password : String) (e : GoardError)
    (hl : login ≠ "") (hp : password ≠ "")
    (herr : (signin g st freshId now login password).result = .error e) :
    ∀ t ∈ st, t.credentials.login = login →
      t ∉ (signin g st freshId now login password).store := by
  rcases signin_cases g st freshId now login password with
    ⟨s, hres, _⟩ | ⟨e', hres, hst⟩
  · rw [hres] at herr
    cases herr
  · rcases hst with hst | ⟨hemp, _⟩
    · intro t ht hlg
      rw [hst]
      exact revokeLoginSessions_not_mem ht hlg
    · rcases hemp with h | h
      · exact absurd h hl
      · exact absurd h hp

/-- Witness for C10: a sign-in for `alice` with a wrong password (the
database knows no credentials, so authentication fails) still removes her
live session. -/
theorem signin_failure_still_revokes_witness :
    sAlice ∉ (signin gAdmin [sAlice] "new" 100 "alice" "wrong").store := by
  have h := signin_failure_still_revokes gAdmin [sAlice] "new" 100
    "alice" "wrong" .credentialsNotFound (by decide) (by decide) (by decide)
  exact h sAlice (by decide) (by decide)

end GoardSpec

namespace GoardSpec

/-! ### Store-shape lemmas for the remaining operations -/

theorem storeWF_subset {ttl : Nat} {st st' : Store}
    (hsub : ∀ u ∈ st', u ∈ st) (h : storeWF ttl st) : storeWF ttl st' :=
  fun s hs => h s (hsub s hs)

theorem mem_session_store {st : Store} {now : Nat} {sid : String} {u : Session} :
    u ∈ (session st now sid).store → u ∈ st := by
  unfold session
  split
  · exact id
  · split
    · exact id
    · split
      · exact id
      · intro h
        exact (mem_revokeSession.mp h).1

theorem mem_cleanupTick {st : Store} {t : Nat} {u : Session} :
    u ∈ cleanupTick st t → u ∈ st := by
  unfold cleanupTick
  split
  · exact id
  · intro h
    simp only [Store.forEach] at h
    rcases mem_foldl_cases _ (fun _ _ => False)
        (by
          intro acc s v hv
          split at hv
          · exact .inl hv
          · exact .inl (mem_revokeSession.mp hv).1)
        st st u h with h1 | ⟨_, _, hf⟩
    · exact h1
    · exact hf.elim

theorem mem_propagateCredentials {st : Store} {c : Credentials} {u : Session} :
    u ∈ propagateCredentials st c → u ∈ st ∨ ∃ s ∈ st, u = replaceCredentials s c := by
  intro h
  simp only [propagateCredentials, Store.forEach] at h
  exact mem_foldl_cases _ (fun s v => v = replaceCredentials s c)
    (by
      intro acc s v hv
      split at hv
      · rcases mem_createSession_elim hv with he | hm
        · exact .inr he
        · exact .inl hm
      · exact .inl hv)
    st st u h

theorem setRole_store_cases (g : Goard) (st : Store) (id : String)
    (account : Int) (role : String) :
    (setRole g st id account role).store = st ∨
    ∃ c, (setRole g st id account role).store = propagateCredentials st c := by
  simp only [setRole]
  split
  · exact .inl rfl
  · split
    · split
      · exact .inl rfl
      · split
        · exact .inl rfl
        · split
          · exact .inl rfl
          · exact .inr ⟨_, rfl⟩
    · exact .inl rfl

theorem unsetRole_store_cases (g : Goard) (st : Store) (id : String)
    (account : Int) (role : String) :
    (unsetRole g st id account role).store = st ∨
    ∃ c, (unsetRole g st id account role).store = propagateCredentials st c := by
  simp only [unsetRole]
  split
  · exact .inl rfl
  · split
    · split
      · exact .inl rfl
      · split
        · exact .inl rfl
        · exact .inr ⟨_, rfl⟩
    · exact .inl rfl

/-- C5: every session created by sign-in (regular and admin path alike) has
`expiresAt = issuedAt + ttl` and, for a positive configured ttl,
`expiresAt > issuedAt`; and every operation — sign-in, the role-propagation
replacement of `setRole`/`unsetRole`, validation's lazy revocation, the
cleanup sweep, and sign-out — preserves this relation for every session in
the store. -/
theorem session_expiry_invariant (g : Goard) (st : Store) (freshId : String)
    (now : Nat) (login password : String) (httl : 0 < g.ttl) :
    (∀ s, (signin g st freshId now login password).result = .ok s →
        sessionWF g.ttl s) ∧
    (storeWF g.ttl st →
        storeWF g.ttl (signin g st freshId now login password).store) ∧
    (∀ id account role, storeWF g.ttl st →
        storeWF g.ttl (setRole g st id account role).store) ∧
    (∀ id account role, storeWF g.ttl st →
        storeWF g.ttl (unsetRole g st id account role).store) ∧
    (∀ sid, storeWF g.ttl st → storeWF g.ttl (session st now sid).store) ∧
    (∀ t, storeWF g.ttl st → storeWF g.ttl (cleanupTick st t)) ∧
    (∀ sid, storeWF g.ttl st → storeWF g.ttl (signout st sid)) := by
  have hnew : ∀ s : Session, s.exp = now + g.ttl → s.iss = now → sessionWF g.ttl s := by
    intro s h1 h2
    constructor
    · rw [h1, h2]
    · rw [h1, h2]
      omega
  refine ⟨?_, ?_, ?_, ?_, ?_, ?_, ?_⟩
  · intro s hok
    rcases signin_cases g st freshId now login password with
      ⟨s', hres, _, hexp, hiss, _⟩ | ⟨e, hres, _⟩
    · rw [hres] at hok
      injection hok with hs
      subst hs
      exact hnew s' hexp hiss
    · rw [hres] at hok
      cases hok
  · intro hwf
    rcases signin_cases g st freshId now login password with
      ⟨s', _, hstore, hexp, hiss, _⟩ | ⟨e, _, hst⟩
    · rw [hstore]
      intro u hu
      rcases mem_createSession_elim hu with he | hm
      · rw [he]
        exact hnew s' hexp hiss
      · exact hwf u (revokeLoginSessions_subset hm)
    · rcases hst with hst | ⟨_, hst⟩
      · rw [hst]
        exact storeWF_subset (fun u hu => revokeLoginSessions_subset hu) hwf
      · rw [hst]
        exact hwf
  · intro id account role hwf
    rcases setRole_store_cases g st id account role with hst | ⟨c, hst⟩
    · rw [hst]
      exact hwf
    · rw [hst]
      intro u hu
      rcases mem_propagateCredentials hu with hm | ⟨s, hs, he⟩
      · exact hwf u hm
      · rw [he]
        exact hwf s hs
  · intro id account role hwf
    rcases unsetRole_store_cases g st id account role with hst | ⟨c, hst⟩
    · rw [hst]
      exact hwf
    · rw [hst]
      intro u hu
      rcases mem_propagateCredentials hu with hm | ⟨s, hs, he⟩
      · exact hwf u hm
      · rw [he]
        exact hwf s hs
  · intro sid hwf
    exact storeWF_subset (fun u hu => mem_session_store hu) hwf
  · intro t hwf
    exact storeWF_subset (fun u hu => mem_cleanupTick hu) hwf
  · intro sid hwf
    unfold signout
    split
    · exact hwf
    · exact storeWF_subset (fun u hu => (mem_revokeSession.mp hu).1) hwf

/-- Witness for C5: with ttl 5 the session created by a concrete sign-in at
time 100 satisfies the expiry relation, and the resulting store does too. -/
theorem session_expiry_invariant_witness :
    sessionWF gAlice.ttl (⟨"new", 1, ⟨1, "alice", "H", []⟩, 105, 100, false⟩ : Session) ∧
    storeWF gAlice.ttl (signin gAlice [sAlice] "new" 100 "alice" "secret").store := by
  have h := session_expiry_invariant gAlice [sAlice] "new" 100 "alice" "secret" (by decide)
  exact ⟨h.1 _ (by decide), h.2.1 (by decide)⟩

end GoardSpec

namespace GoardSpec

/-- C4: session validation given a session id — empty store fails with
SessionNotFound; an absent id fails with SessionNotFound; a present session
whose `expiresAt` is at or before `now` fails with SessionExpired with the
entry revoked (the source does this revocation fire-and-forget; here it is
modelled as having taken effect on the resulting store); a session whose
`expiresAt` is strictly after `now` is returned unchanged with the store
untouched. -/
theorem session_validation_cases (st : Store) (now : Nat) (sid : String) :
    (st = [] → session st now sid = ⟨.error .sessionNotFound, st⟩) ∧
    (Store.invokeSession st sid = none →
        session st now sid = ⟨.error .sessionNotFound, st⟩) ∧
    (∀ s, Store.invokeSession st sid = some s → s.exp ≤ now →
        session st now sid = ⟨.error .sessionExpired, Store.revokeSession st sid⟩) ∧
    (∀ s, Store.invokeSession st sid = some s → now < s.exp →
        session st now sid = ⟨.ok s, st⟩) := by
  have hcnt : Store.count st = 0 → st = [] := fun h => List.length_eq_zero.mp h
  refine ⟨?_, ?_, ?_, ?_⟩
  · intro h
    subst h
    rfl
  · intro h
    unfold session
    split
    · rfl
    · rw [h]
  · intro s hs hexp
    unfold session
    split
    · rename_i h0
      rw [hcnt h0] at hs
      cases hs
    · rw [hs]
      simp only [if_neg (by omega : ¬ s.exp > now)]
  · intro s hs hlt
    unfold session
    split
    · rename_i h0
      rw [hcnt h0] at hs
      cases hs
    · rw [hs]
      simp only [if_pos (by omega : s.exp > now)]

/-- Witness for C4: validating `alice`'s session (expiry 45) at time 100
fails with SessionExpired and removes the entry. -/
theorem session_validation_cases_witness :
    session [sAlice] 100 "old" = ⟨.error .sessionExpired, []⟩ := by
  have h := (session_validation_cases [sAlice] 100 "old").2.2.1 sAlice
    (by decide) (by decide)
  exact h.trans (by decide)

/-- C6: granting a role the target credentials already hold fails with
RoleConflict and mutates nothing — no `UpdateCredentials` call is made (the
event trace holds only the credentials lookup) and the store is returned
unchanged, so no session is replaced.  Revoking a role the target
credentials do not hold succeeds and persists the credentials with the role
set exactly as it was. -/
theorem role_grant_conflict_revoke_noop (g : Goard) (st : Store) (id : String)
    (account : Int) (role : String) (sess : Session) (credentials : Credentials)
    (hinv : Store.invokeSession st id = some sess)
    (hadm : sess.admin = true)
    (hdb : g.credentialsByID account = .ok credentials) :
    (role ∈ credentials.roles →
        setRole g st id account role =
          ⟨.error .roleConflict, st, [.dbCredentialsByID account]⟩) ∧
    (role ∉ credentials.roles → g.updateCredentials credentials = .ok () →
        unsetRole g st id account role =
          ⟨.ok (), propagateCredentials st credentials,
           [.dbCredentialsByID account, .dbUpdateCredentials credentials]⟩) := by
  constructor
  · intro hrole
    simp only [setRole, hinv, hadm, hdb, if_true, hrole, if_pos]
  · intro hrole hupd
    have hfilter : List.filter (fun r => ¬ r = role) credentials.roles
        = credentials.roles :=
      List.filter_eq_self.mpr (fun a ha => decide_eq_true (fun he => hrole (he ▸ ha)))
    have hcc : ({ credentials with
        roles := List.filter (fun r => ¬ r = role) credentials.roles } : Credentials)
        = credentials := by
      rw [hfilter]
    simp only [unsetRole, hinv, hadm, hdb, hcc, hupd, if_true]

/-- Witness for C6: with an admin session, granting `editor` to account 42
(which already holds it) fails with RoleConflict and leaves the store
alone; revoking `viewer` (not held) succeeds and persists the unchanged
role set. -/
theorem role_grant_conflict_revoke_noop_witness :
    setRole gAlice [⟨"adm", 7, ⟨5, "boss", "H", []⟩, 200, 100, true⟩] "adm" 42 "editor"
      = ⟨.error .roleConflict, [⟨"adm", 7, ⟨5, "boss", "H", []⟩, 200, 100, true⟩],
         [.dbCredentialsByID 42]⟩ ∧
    unsetRole gAlice [⟨"adm", 7, ⟨5, "boss", "H", []⟩, 200, 100, true⟩] "adm" 42 "viewer"
      = ⟨.ok (),
         propagateCredentials [⟨"adm", 7, ⟨5, "boss", "H", []⟩, 200, 100, true⟩]
           ⟨42, "alice", "H", ["editor"]⟩,
         [.dbCredentialsByID 42, .dbUpdateCredentials ⟨42, "alice", "H", ["editor"]⟩]⟩ := by
  constructor
  · exact (role_grant_conflict_revoke_noop gAlice
      [⟨"adm", 7, ⟨5, "boss", "H", []⟩, 200, 100, true⟩] "adm" 42 "editor"
      ⟨"adm", 7, ⟨5, "boss", "H", []⟩, 200, 100, true⟩ ⟨42, "alice", "H", ["editor"]⟩
      (by decide) (by decide) (by decide)).1 (by decide)
  · exact (role_grant_conflict_revoke_noop gAlice
      [⟨"adm", 7, ⟨5, "boss", "H", []⟩, 200, 100, true⟩] "adm" 42 "viewer"
      ⟨"adm", 7, ⟨5, "boss", "H", []⟩, 200, 100, true⟩ ⟨42, "alice", "H", ["editor"]⟩
      (by decide) (by decide) (by decide)).2 (by decide) (by decide)

end GoardSpec

namespace GoardSpec

/-! ### Role propagation -/

theorem propagate_mem_replacement {st : Store} {c : Credentials}
    (hids : (List.map Session.id st).Nodup) {t : Session}
    (ht : t ∈ st) (hm : t.credentials.id = c.id) :
    replaceCredentials t c ∈ propagateCredentials st c := by
  simp only [propagateCredentials, Store.forEach]
  apply foldl_eventually_mem _ t (replaceCredentials t c) st st ht
  · intro acc'
    rw [if_pos hm]
    exact self_mem_createSession _ _
  · intro acc' s hs hmem
    split
    · by_cases hid : s.id = t.id
      · have hst : s = t := List.inj_on_of_nodup_map hids hs ht hid
        rw [hst]
        exact self_mem_createSession _ _
      · exact mem_createSession_of_ne hmem (fun h => hid ((congrArg Session.id rfl).trans h).symm)
    · exact hmem

theorem propagate_stale_absent {st : Store} {c : Credentials} {t : Session}
    (ht : t ∈ st) (hm : t.credentials.id = c.id) (hne : t.credentials ≠ c) :
    t ∉ propagateCredentials st c := by
  simp only [propagateCredentials, Store.forEach]
  apply foldl_eventually_not_mem _ t st st ht
  · intro acc'
    rw [if_pos hm]
    apply not_mem_createSession_same_id
      (show t.id = (replaceCredentials t c).id from rfl)
    intro he
    exact hne (congrArg Session.credentials he)
  · intro acc' s _ hnot
    split
    · apply not_mem_createSession hnot
      intro he
      refine hne ?_
      rw [he]
      rfl
    · exact hnot

theorem propagate_nonmatch_mem {st : Store} {c : Credentials} {t : Session}
    (hids : (List.map Session.id st).Nodup)
    (ht : t ∈ st) (hnm : t.credentials.id ≠ c.id) :
    t ∈ propagateCredentials st c := by
  simp only [propagateCredentials, Store.forEach]
  apply mem_foldl_preserve _ t st st ?_ ht
  intro acc' s hs hmem
  split
  · rename_i hsc
    apply mem_createSession_of_ne hmem
    intro h
    have hst : t = s := List.inj_on_of_nodup_map hids ht hs h
    rw [hst] at hnm
    exact hnm hsc
  · exact hmem

theorem propagate_id_unique {st : Store} {c : Credentials}
    (hids : (List.map Session.id st).Nodup) {t : Session}
    (ht : t ∈ st) (hm : t.credentials.id = c.id) :
    ∀ u ∈ propagateCredentials st c, u.id = t.id → u = replaceCredentials t c := by
  intro u hu hid
  rcases mem_propagateCredentials hu with hmem | ⟨s, hs, he⟩
  · have hut : u = t := List.inj_on_of_nodup_map hids hmem ht hid
    subst hut
    by_cases hc : u.credentials = c
    · rw [replaceCredentials, ← hc]
    · exact absurd hu (propagate_stale_absent ht hm hc)
  · have hsid : s.id = t.id := by
      rw [← hid, he]
      rfl
    have hst : s = t := List.inj_on_of_nodup_map hids hs ht hsid
    rw [he, hst]

theorem invokeSession_eq_of_unique {st' : Store} {t' : Session} {sid : String}
    (hmem : t' ∈ st') (hid : t'.id = sid)
    (huniq : ∀ u ∈ st', u.id = sid → u = t') :
    Store.invokeSession st' sid = some t' := by
  unfold Store.invokeSession
  have hsome : (List.find? (fun t => t.id = sid) st').isSome :=
    List.find?_isSome.mpr ⟨t', hmem, decide_eq_true hid⟩
  rcases Option.isSome_iff_exists.mp hsome with ⟨u, hu⟩
  have hum := List.mem_of_find?_eq_some hu
  have hup : u.id = sid := by
    have hp := List.find?_some hu
    simpa using hp
  rw [hu, huniq u hum hup]

theorem replacedAll_propagate {st : Store} {c : Credentials} {account : Int}
    (hids : (List.map Session.id st).Nodup) (hacc : c.id = account) :
    replacedAll st account c (propagateCredentials st c) := by
  constructor
  · intro t ht hmatch
    have hm : t.credentials.id = c.id := by rw [hmatch, hacc]
    refine ⟨propagate_mem_replacement hids ht hm, propagate_id_unique hids ht hm, ?_⟩
    exact invokeSession_eq_of_unique (propagate_mem_replacement hids ht hm) rfl
      (propagate_id_unique hids ht hm)
  · intro t ht hnm
    apply propagate_nonmatch_mem hids ht
    rw [hacc]
    exact hnm

theorem setRole_run_ok (g : Goard) (st : Store) (id : String) (account : Int)
    (role : String) (sess : Session) (credentials : Credentials)
    (hinv : Store.invokeSession st id = some sess)
    (hadm : sess.admin = true)
    (hdb : g.credentialsByID account = .ok credentials)
    (hrole : role ∉ credentials.roles)
    (hupd : g.updateCredentials
        { credentials with roles := credentials.roles ++ [role] } = .ok ()) :
    setRole g st id account role =
      ⟨.ok (),
       propagateCredentials st { credentials with roles := credentials.roles ++ [role] },
       [.dbCredentialsByID account,
        .dbUpdateCredentials { credentials with roles := credentials.roles ++ [role] }]⟩ := by
  simp only [setRole, hinv, hadm, hdb, if_true, if_neg hrole, hupd]

theorem unsetRole_run_ok (g : Goard) (st : Store) (id : String) (account : Int)
    (role : String) (sess : Session) (credentials : Credentials)
    (hinv : Store.invokeSession st id = some sess)
    (hadm : sess.admin = true)
    (hdb : g.credentialsByID account = .ok credentials)
    (hupd : g.updateCredentials
        { credentials with
          roles := List.filter (fun r => ¬ r = role) credentials.roles } = .ok ()) :
    unsetRole g st id account role =
      ⟨.ok (),
       propagateCredentials st
         { credentials with
           roles := List.filter (fun r => ¬ r = role) credentials.roles },
       [.dbCredentialsByID account,
        .dbUpdateCredentials
          { credentials with
            roles := List.filter (fun r => ¬ r = role) credentials.roles }]⟩ := by
  simp only [unsetRole, hinv, hadm, hdb, hupd, if_true]

/-- C7: after a successful grant or revoke targeting account `account`,
every session in the store whose credentials id equals `account` has been
replaced by a copy with the same id, account, issuedAt, expiresAt and admin
flag but the freshly updated credentials (that copy is the unique session
under its id, and the one a subsequent `InvokeSession` of the same session
id returns), while every session for a different account is left
unchanged. -/
theorem role_change_propagates (g : Goard) (st : Store) (id : String)
    (account : Int) (role : String) (sess : Session) (credentials : Credentials)
    (hids : (List.map Session.id st).Nodup)
    (hinv : Store.invokeSession st id = some sess)
    (hadm : sess.admin = true)
    (hdb : g.credentialsByID account = .ok credentials)
    (hacc : credentials.id = account) :
    (role ∉ credentials.roles →
      g.updateCredentials { credentials with roles := credentials.roles ++ [role] } = .ok () →
      replacedAll st account { credentials with roles := credentials.roles ++ [role] }
        (setRole g st id account role).store) ∧
    (g.updateCredentials
        { credentials with
          roles := List.filter (fun r => ¬ r = role) credentials.roles } = .ok () →
      replacedAll st account
        { credentials with
          roles := List.filter (fun r => ¬ r = role) credentials.roles }
        (unsetRole g st id account role).store) := by
  constructor
  · intro hrole hupd
    rw [setRole_run_ok g st id account role sess credentials hinv hadm hdb hrole hupd]
    exact replacedAll_propagate hids hacc
  · intro hupd
    rw [unsetRole_run_ok g st id account role sess credentials hinv hadm hdb hupd]
    exact replacedAll_propagate hids hacc

/-- Witness for C7: granting `viewer` to account 42 while an admin session
and a live session for account 42 are in the store replaces the latter with
a copy carrying the new role set and leaves the admin session untouched. -/
theorem role_change_propagates_witness :
    replacedAll
      [⟨"adm", 7, ⟨5, "boss", "H", []⟩, 200, 100, true⟩,
       ⟨"u42", 42, ⟨42, "alice", "H", ["editor"]⟩, 150, 100, false⟩]
      42 ⟨42, "alice", "H", ["editor", "viewer"]⟩
      (setRole gAlice
        [⟨"adm", 7, ⟨5, "boss", "H", []⟩, 200, 100, true⟩,
         ⟨"u42", 42, ⟨42, "alice", "H", ["editor"]⟩, 150, 100, false⟩]
        "adm" 42 "viewer").store := by
  exact (role_change_propagates gAlice
    [⟨"adm", 7, ⟨5, "boss", "H", []⟩, 200, 100, true⟩,
     ⟨"u42", 42, ⟨42, "alice", "H", ["editor"]⟩, 150, 100, false⟩]
    "adm" 42 "viewer" ⟨"adm", 7, ⟨5, "boss", "H", []⟩, 200, 100, true⟩
    ⟨42, "alice", "H", ["editor"]⟩
    (by decide) (by decide) (by decide) (by decide) (by decide)).1
    (by decide) (by decide)

end GoardSpec

namespace GoardSpec

/-- C9: on a cleanup tick at time `t`, an empty store is left alone, every
session whose `expiresAt` is at or before `t` is revoked, and every session
whose `expiresAt` is strictly after `t` stays in the store. -/
theorem cleanupTick_spec (st : Store) (t : Nat)
    (hids : (List.map Session.id st).Nodup) :
    cleanupTick [] t = [] ∧
    (∀ s ∈ st, s.exp ≤ t → s ∉ cleanupTick st t) ∧
    (∀ s ∈ st, t < s.exp → s ∈ cleanupTick st t) := by
  refine ⟨rfl, ?_, ?_⟩
  · intro s hs hexp
    unfold cleanupTick
    split
    · rename_i h0
      rw [List.length_eq_zero.mp h0] at hs
      cases hs
    · simp only [Store.forEach]
      apply foldl_eventually_not_mem _ s st st hs
      · intro acc'
        rw [if_neg (by omega : ¬ s.exp > t)]
        intro hc
        exact (mem_revokeSession.mp hc).2 rfl
      · intro acc' s' _ hnot hc
        split at hc
        · exact hnot hc
        · exact hnot (mem_revokeSession.mp hc).1
  · intro s hs hexp
    unfold cleanupTick
    split
    · exact hs
    · simp only [Store.forEach]
      apply mem_foldl_preserve _ s st st ?_ hs
      intro acc' s' hs' hmem
      split
      · exact hmem
      · rename_i hexp'
        refine mem_revokeSession.mpr ⟨hmem, ?_⟩
        intro hid
        have hss : s = s' := List.inj_on_of_nodup_map hids hs hs' hid
        rw [← hss] at hexp'
        exact hexp' (by omega)

/-- Witness for C9: at tick time 100, `alice`'s session (expiry 45) is
revoked and `bob`'s (expiry 200) survives. -/
theorem cleanupTick_spec_witness :
    sAlice ∉ cleanupTick [sAlice, ⟨"live", 2, ⟨2, "bob", "H", []⟩, 200, 100, false⟩] 100 ∧
    (⟨"live", 2, ⟨2, "bob", "H", []⟩, 200, 100, false⟩ : Session) ∈
      cleanupTick [sAlice, ⟨"live", 2, ⟨2, "bob", "H", []⟩, 200, 100, false⟩] 100 := by
  have h := cleanupTick_spec
    [sAlice, ⟨"live", 2, ⟨2, "bob", "H", []⟩, 200, 100, false⟩] 100 (by decide)
  exact ⟨h.2.1 sAlice (by decide) (by decide),
         h.2.2 ⟨"live", 2, ⟨2, "bob", "H", []⟩, 200, 100, false⟩ (by decide) (by decide)⟩

/-- C8: `diffSlices old new` returns the elements of `old` absent from
`new` (in `old`'s order) and the elements of `new` absent from `old` (in
`new`'s order); in particular `diffSlices [a, b] [b, c] = ([a], [c])`. -/
theorem diffSlices_spec (old new : List String) :
    (∀ x, x ∈ (diffSlices old new).1 ↔ x ∈ old ∧ x ∉ new) ∧
    (∀ x, x ∈ (diffSlices old new).2 ↔ x ∈ new ∧ x ∉ old) ∧
    diffSlices ["a", "b"] ["b", "c"] = (["a"], ["c"]) := by
  refine ⟨?_, ?_, by decide⟩
  · intro x
    simp [diffSlices, List.mem_filter]
  · intro x
    simp [diffSlices, List.mem_filter]

/-- C1 (evaluation of the code at the failing input): sign-in with the
configured admin login and password synthesizes a session with credential
roles exactly `["admin"]`, makes no collaborator call (empty event trace) —
but the session's admin flag is `false`, because the struct literal in
`signinAsAdmin` never sets the `admin` field, while the specification
states `isAdmin = true` (and `setRole`/`unsetRole` require it). -/
theorem signinAsAdmin_flag_divergence :
    signin gAdmin [] "sid-1" 100 "root" "pw" =
      ⟨.ok ⟨"sid-1", 7, ⟨0, "root", "", ["admin"]⟩, 105, 100, false⟩,
       [⟨"sid-1", 7, ⟨0, "root", "", ["admin"]⟩, 105, 100, false⟩], []⟩ ∧
    (⟨"sid-1", 7, ⟨0, "root", "", ["admin"]⟩, 105, 100, false⟩ : Session).admin = false ∧
    (⟨"sid-1", 7, ⟨0, "root", "", ["admin"]⟩, 105, 100, false⟩ : Session).credentials.roles
      = ["admin"] := by
  exact ⟨by decide, rfl, rfl⟩

/-- C2 (evaluation of the code at the failing input): when the by-id
conflict check of sign-up finds existing credentials, the operation returns
CredentialsConflict *without* invoking `DeleteAccount` — at that return the
named `err` variable is nil, so the deferred rollback does not fire — while
the analogous by-login conflict does trigger the rollback.  The claim that
every post-creation failure (in particular every CredentialsConflict) rolls
the account back therefore fails on the id-conflict path. -/
theorem signup_id_conflict_skips_rollback :
    signup gConflictID "acct" "bob" "pw" =
      ⟨.error .credentialsConflict, [.appCreateAccount, .dbCredentialsByID 1]⟩ ∧
    Event.appDeleteAccount 1 ∉ (signup gConflictID "acct" "bob" "pw").events ∧
    signup gConflictLogin "acct" "bob" "pw" =
      ⟨.error .credentialsConflict,
       [.appCreateAccount, .dbCredentialsByID 1, .dbCredentialsByLogin "bob",
        .appDeleteAccount 1]⟩ := by
  exact ⟨by decide, by decide, by decide⟩

end GoardSpec
